import Mathlib

set_option linter.unusedVariables false

/-! Verification development for the panGPT training data pipeline
(panGPT.py, panPrompt.py).

Python strings of whitespace-separated symbolic tokens are represented by
their token lists (the str.split / ' '.join round-trip), Python ints by Nat
or Int, validation losses by rationals (only order and subtraction are used
on them), and the ambient random draws (random.randint, np.random.poisson,
np.random.choice) by an explicit oracle record.  A Python function that can
raise is embedded as an Option-valued function, with none marking the raised
exception. -/

/-- Embedding of pad_input (panGPT.py lines 105-113): extend the list with
pad_token_id, or with the ignore index -100 when the labels flag is set.  A
list already at or beyond max_length is unchanged, because Python extends by
a list of non-positive replicated length. -/
def pad_input (input : List Int) (max_length : Nat) (pad_token_id : Int) (labels : Bool) :
    List Int :=
  let len_masked := input.length
  if labels = false then
    input ++ List.replicate (max_length - len_masked) pad_token_id
  else
    input ++ List.replicate (max_length - len_masked) (-100)

/-- NumPy fancy assignment integer_indices[indices_to_mask] = "<mask>" on the
token array: every position whose index lies in choice becomes the sentinel
word, every other position is untouched. -/
def maskSel (choice : List Nat) : Nat → List String → List String
  | _, [] => []
  | k, t :: ts => (if k ∈ choice then "<mask>" else t) :: maskSel choice (k + 1) ts

/-- Embedding of panGPT.mask_integers (panGPT.py lines 81-103).  The input
string is its whitespace token list.  poisson_draw is the value returned by
np.random.poisson (whose mean int(len * prop_masked) is computed but feeds
only the draw), and choice is the index sample of np.random.choice; that
call raises ValueError when asked for more distinct indices than exist,
embedded as none. -/
def mask_integers (tokens : List String) (prop_masked : ℚ) (poisson_draw : Nat)
    (choice : List Nat) : Option (List String) :=
  if 0 < prop_masked then
    let poisson_mean := (⌊(tokens.length : ℚ) * prop_masked⌋).toNat
    let num_to_mask := poisson_draw
    if num_to_mask ≤ tokens.length then some (maskSel choice 0 tokens)
    else none
  else
    some tokens

/-- Embedding of panPrompt.mask_integers (panPrompt.py lines 143-162): here
num_to_mask is the deterministic int(len * prop_masked) (truncation toward
zero, which agrees with floor-then-toNat on the positivity test and on every
positive value), an empty index array is used when it is zero, and
np.random.choice raises (none) when num_to_mask exceeds the token count. -/
def mask_integersPrompt (tokens : List String) (prop_masked : ℚ) (choice : List Nat) :
    Option (List String) :=
  let num_to_mask := (⌊(tokens.length : ℚ) * prop_masked⌋).toNat
  if 0 < num_to_mask then
    if num_to_mask ≤ tokens.length then some (maskSel choice 0 tokens)
    else none
  else
    some tokens

/-- State of the EarlyStopping handler (panGPT.py lines 597-632). -/
@[ext]
structure EarlyStopping where
  patience : Nat
  min_delta : ℚ
  counter : Nat
  best_loss : Option ℚ
  early_stop : Bool
deriving DecidableEq

/-- Constructor defaults of EarlyStopping.__init__. -/
def EarlyStopping.start (patience : Nat) (min_delta : ℚ) : EarlyStopping :=
  ⟨patience, min_delta, 0, none, false⟩

/-- Embedding of EarlyStopping.__call__ (panGPT.py lines 621-632): the Python
test val_loss > self.best_loss - self.min_delta is best - min_delta <
val_loss here; the counter is incremented first and then compared with the
patience. -/
def EarlyStopping.call (s : EarlyStopping) (val_loss : ℚ) : EarlyStopping :=
  match s.best_loss with
  | none => { s with best_loss := some val_loss }
  | some best =>
    if best - s.min_delta < val_loss then
      if s.patience ≤ s.counter + 1 then
        { s with counter := s.counter + 1, early_stop := true }
      else
        { s with counter := s.counter + 1 }
    else
      { s with best_loss := some val_loss, counter := 0 }

/-- Sequence of __call__ invocations, one per observed validation loss. -/
def EarlyStopping.run (s : EarlyStopping) (losses : List ℚ) : EarlyStopping :=
  losses.foldl EarlyStopping.call s

/-- Checkpoint record written by save_checkpoint (panGPT.py lines 232-256);
the model and optimizer state dicts are abstract types. -/
structure Checkpoint (M O : Type) where
  epoch : Nat
  model_state_dict : M
  optimizer_state_dict : O
  loss : ℚ

/-- Embedding of load_checkpoint (panGPT.py lines 258-295).  file_on_disk
models os.path.exists(checkpoint_path); read models the whole fallible chain
inside the try block (torch.load, the two load_state_dict calls and the
checkpoint["epoch"] access), Except.error being any raised exception, all of
which the except clause catches.  The result is the returned (start_epoch,
loaded) pair together with the state actually written into the model and
optimizer, none when nothing was restored. -/
def load_checkpoint (M O : Type) (file_on_disk : Bool) (restart : Bool)
    (read : Except String (Checkpoint M O)) : Nat × Bool × Option (M × O) :=
  if file_on_disk = false then (0, false, none)
  else if restart then (0, false, none)
  else
    match read with
    | Except.ok checkpoint =>
        (checkpoint.epoch + 1, true,
          some (checkpoint.model_state_dict, checkpoint.optimizer_state_dict))
    | Except.error _ => (0, false, none)

/-- Match a literal pattern at the head of the character list, returning the
rest on success. -/
def chopPref : List Char → List Char → Option (List Char)
  | [], s => some s
  | _ :: _, [] => none
  | p :: ps, c :: cs => if p = c then chopPref ps cs else none

/-- Greedy match of one or more consecutive copies of block, returning the
rest after the maximal run; fuel bounds the number of copies (block is never
empty below, so any fuel at least the string length is exact). -/
def chopRuns (block : List Char) : Nat → List Char → Option (List Char)
  | 0, _ => none
  | fuel + 1, s =>
    match chopPref block s with
    | none => none
    | some rest =>
      match chopRuns block fuel rest with
      | none => some rest
      | some rest2 => some rest2

/-- Python re.sub with pattern (block)+ and a literal replacement: scan left
to right, replace each leftmost maximal run of block by repl, and never
rescan the replacement.  The outer fuel bounds the scan steps; the string
length suffices since every step consumes at least one character. -/
def reSubPlus (block repl : List Char) : Nat → List Char → List Char
  | 0, s => s
  | fuel + 1, s =>
    match s with
    | [] => []
    | c :: rest =>
      match chopRuns block (rest.length + 2) (c :: rest) with
      | some rest2 => repl ++ reSubPlus block repl fuel rest2
      | none => c :: reSubPlus block repl fuel rest

/-- Decimal rendering of an id list joined by single spaces, as in
' '.join(str(i) for i in encoder_input). -/
def renderIds (ids : List Nat) : List Char :=
  (String.intercalate " " (ids.map (fun i => toString i))).data

/-- Python str.split(): split on space runs, dropping empty pieces; the
first argument accumulates the current (reversed) piece. -/
def splitSp : List Char → List Char → List (List Char)
  | acc, [] => if acc = [] then [] else [acc.reverse]
  | acc, c :: cs =>
    if c = ' ' then
      if acc = [] then splitSp [] cs else acc.reverse :: splitSp [] cs
    else
      splitSp (c :: acc) cs

/-- Python int() on a decimal digit string. -/
def parseDec (cs : List Char) : Nat :=
  cs.foldl (fun a c => a * 10 + (c.toNat - 48)) 0

/-- Embedding of the consecutive-mask merging step (panGPT.py lines 558-568
and identically panPrompt.py lines 91-100): render the ids as a space-joined
decimal string, apply re.sub with pattern (mask )+ and replacement "mask ",
then re.sub with pattern ( mask)+ and replacement " mask", split on
whitespace and parse the pieces back to ids. -/
def mergeMasks (mask_token : Nat) (encoder_input : List Nat) : List Nat :=
  let s := renderIds encoder_input
  let m := (toString mask_token).data
  let s1 := reSubPlus (m ++ [' ']) (m ++ [' ']) (s.length + 1) s
  let s2 := reSubPlus (' ' :: m) (' ' :: m) (s1.length + 1) s1
  (splitSp [] s2).map parseDec

/-- Modelled from the spec: the reference single linear scan for mask-run
collapsing, emitting a sentinel only when the next id differs, so that every
maximal run of consecutive mask-sentinel ids becomes exactly one sentinel
and every other id is kept unchanged in order. -/
def collapseLinearScan (mask : Nat) : List Nat → List Nat
  | [] => []
  | [a] => [a]
  | a :: b :: rest =>
    if a = mask ∧ b = mask then collapseLinearScan mask (b :: rest)
    else a :: collapseLinearScan mask (b :: rest)

/-- External tokenizer collaborator: encode maps a text (its whitespace
token list) to ids; decode is tokenizer.decode(ids, skip_special_tokens=True)
returning the whitespace token list of the decoded string. -/
structure TokenizerModel where
  encode : List String → List Nat
  decode : List Nat → List String

/-- Tokenizer variant selected by the --tokenizer flag. -/
inductive TokType
  | WordLevel
  | BPE
deriving DecidableEq

/-- Ambient random draws consumed by one __getitem__ call: the
random.randint window offset, the np.random.poisson sample and the
np.random.choice index sample. -/
structure RandOracle where
  start_index : Nat
  poisson_draw : Nat
  mask_choice : List Nat

/-- Values assembled by __getitem__ before padding and mask merging: the
window labels, the wrapped decoder input, the re-encoded masked encoder
input, and the window-origin flag. -/
structure PreExample where
  labels0 : List Nat
  decoder0 : List Nat
  encoder0 : List Nat
  beginning : Nat
deriving DecidableEq

/-- Training example returned by GenomeDataset.__getitem__ (the attention
masks are the 0/1 tensors as lists). -/
structure TrainingExample where
  decoder_input : List Int
  encoder_input : List Int
  labels : List Int
  decoder_attention_mask : List Nat
  encoder_attention_mask : List Nat
  beginning : Nat
deriving DecidableEq

/-- Embedding of the BPE boundary-marker slicing of the re-encoded masked
window (panGPT.py lines 520-526).  The comparison start_index ==
len(input) - max_length - 1 is between Python ints, hence taken over Int;
encoded[:-1] is dropLast and encoded[1:-1] is drop 1 then dropLast. -/
def bpe_marker_slice (encoded : List Nat) (start_index len_input max_length : Nat) : List Nat :=
  if (start_index : Int) = (len_input : Int) - (max_length : Int) - 1 then encoded
  else if start_index = 0 then encoded.dropLast
  else (encoded.drop 1).dropLast

/-- Embedding of GenomeDataset.__getitem__ (panGPT.py lines 489-548) up to
and including the choice of labels, decoder input, re-encoded masked encoder
input and beginning flag.  none marks a raised exception (labels[-1] on an
empty list, or the sampling fault inside mask_integers).  In the short
branch the original text is masked directly, as in the source; in the
WordLevel long case the source's three-way conditional has identical arms
and is embedded as the plain re-encoding. -/
def getitemCore (tok : TokenizerModel) (tt : TokType) (max_length : Nat) (prop_masked : ℚ)
    (text : List String) (rnd : RandOracle) : Option PreExample :=
  if max_length ≤ (tok.encode text).length then
    match (((tok.encode text).drop rnd.start_index).take max_length).getLast? with
    | none => none
    | some last =>
      match mask_integers (tok.decode (((tok.encode text).drop rnd.start_index).take max_length))
          prop_masked rnd.poisson_draw rnd.mask_choice with
      | none => none
      | some text_masked =>
        some ⟨((tok.encode text).drop rnd.start_index).take max_length,
              last :: (((tok.encode text).drop rnd.start_index).take max_length).dropLast,
              (if tt = TokType.BPE then
                bpe_marker_slice (tok.encode text_masked) rnd.start_index
                  (tok.encode text).length max_length
              else
                tok.encode text_masked),
              if rnd.start_index = 0 then 1 else 0⟩
  else
    match mask_integers text prop_masked rnd.poisson_draw rnd.mask_choice with
    | none => none
    | some text_masked =>
      if tt = TokType.BPE then
        match (tok.encode text).getLast? with
        | none => none
        | some last =>
          some ⟨tok.encode text, last :: (tok.encode text).dropLast, tok.encode text_masked, 1⟩
      else
        some ⟨tok.encode text, (tok.encode text).dropLast, tok.encode text_masked, 1⟩

/-- Embedding of the padding, attention-mask and mask-merging tail of
GenomeDataset.__getitem__ (panGPT.py lines 550-595): the decoder input is
padded with pad_token, the labels with -100, the merged encoder input with
pad_token, and each attention mask is all ones with zeros after the real
(pre-padding) content length. -/
def assemble (max_length : Nat) (mask_token pad_token : Nat) (p : PreExample) :
    TrainingExample :=
  let len_decoder := p.decoder0.length
  let decoder_input := pad_input (p.decoder0.map Int.ofNat) max_length (pad_token : Int) false
  let decoder_attention_mask :=
    List.replicate len_decoder 1 ++ List.replicate (decoder_input.length - len_decoder) 0
  let labels := pad_input (p.labels0.map Int.ofNat) max_length (pad_token : Int) true
  let merged := mergeMasks mask_token p.encoder0
  let len_masked := merged.length
  let encoder_input := pad_input (merged.map Int.ofNat) max_length (pad_token : Int) false
  let encoder_attention_mask :=
    List.replicate len_masked 1 ++ List.replicate (encoder_input.length - len_masked) 0
  ⟨decoder_input, encoder_input, labels, decoder_attention_mask, encoder_attention_mask,
    p.beginning⟩

/-- Full GenomeDataset.__getitem__ for one text. -/
def getitem (tok : TokenizerModel) (tt : TokType) (max_length : Nat) (prop_masked : ℚ)
    (mask_token pad_token : Nat) (text : List String) (rnd : RandOracle) :
    Option TrainingExample :=
  (getitemCore tok tt max_length prop_masked text rnd).map
    (assemble max_length mask_token pad_token)

/-- Toy word-to-id table used to instantiate the theorems. -/
def wlId (w : String) : Nat :=
  if w = "a" then 1 else if w = "b" then 2 else if w = "c" then 3 else 0

/-- Toy id-to-word table used to instantiate the theorems. -/
def wlWord (i : Nat) : String :=
  if i = 1 then "a" else if i = 2 then "b" else if i = 3 then "c" else "<unk>"

/-- Concrete WordLevel-style tokenizer: one id per word, no boundary
markers, decode is the inverse word table. -/
def wordTok : TokenizerModel :=
  ⟨fun ws => ws.map wlId, fun ids => ids.map wlWord⟩

/-- Toy BPE word-to-id table. -/
def bpeId (w : String) : Nat := if w = "a" then 10 else if w = "b" then 11 else 3

/-- Toy BPE id-to-word table. -/
def bpeWord (i : Nat) : String := if i = 10 then "a" else if i = 11 then "b" else "<unk>"

/-- Concrete BPE-style tokenizer: encode wraps the word ids in the boundary
markers 0 and 2 (as the LED tokenizer wraps with its start and end markers);
decode with skip_special_tokens drops the special ids 0..4. -/
def bpeTok : TokenizerModel :=
  ⟨fun ws => 0 :: ws.map bpeId ++ [2], fun ids => (ids.filter (fun i => 4 < i)).map bpeWord⟩

lemma maskSel_length (choice : List Nat) (ts : List String) :
    ∀ k, (maskSel choice k ts).length = ts.length := by
  induction ts with
  | nil => intro k; rfl
  | cons t ts ih => intro k; simp [maskSel, ih]

lemma maskSel_get? (choice : List Nat) (ts : List String) :
    ∀ k i, (k + i) ∉ choice → (maskSel choice k ts).get? i = ts.get? i := by
  induction ts with
  | nil => intro k i _; rfl
  | cons t ts ih =>
    intro k i h
    cases i with
    | zero =>
      have hk : k ∉ choice := by simpa using h
      simp [maskSel, hk]
    | succ i =>
      have h' : (k + 1) + i ∉ choice := by
        have he : (k + 1) + i = k + (i + 1) := by omega
        rw [he]; exact h
      simp only [maskSel, List.get?_cons_succ]
      exact ih (k + 1) i h'

lemma pad_input_length (l : List Int) (m : Nat) (pad : Int) (b : Bool) (h : l.length ≤ m) :
    (pad_input l m pad b).length = m := by
  cases b <;> simp [pad_input] <;> omega

lemma pad_input_drop_pad (l : List Int) (m : Nat) (pad : Int) :
    (pad_input l m pad false).drop l.length = List.replicate (m - l.length) pad := by
  show (l ++ List.replicate (m - l.length) pad).drop l.length = _
  exact List.drop_left _ _

lemma pad_input_drop_ignore (l : List Int) (m : Nat) (pad : Int) :
    (pad_input l m pad true).drop l.length = List.replicate (m - l.length) (-100) := by
  show (l ++ List.replicate (m - l.length) (-100)).drop l.length = _
  exact List.drop_left _ _

/-- Claim C8: load_checkpoint called with the restart flag set returns
(0, false) for every checkpoint path and every file contents, and restores
no model or optimizer state from the file (the restored-state component of
the embedding stays none). -/
theorem c8_restart_returns_fresh (M O : Type) (file_on_disk : Bool)
    (read : Except String (Checkpoint M O)) :
    load_checkpoint M O file_on_disk true read = (0, false, none) := by
  unfold load_checkpoint
  cases file_on_disk <;> simp

/-- Claim C9: load_checkpoint never propagates an exception: a missing file,
and every failure of the torch.load / load_state_dict / epoch-access chain
(modelled as any Except.error), yields the return value (0, false) with no
state restored. -/
theorem c9_load_never_raises (M O : Type) (file_on_disk restart : Bool) (msg : String)
    (read : Except String (Checkpoint M O)) :
    load_checkpoint M O file_on_disk restart (Except.error msg) = (0, false, none) ∧
      load_checkpoint M O false restart read = (0, false, none) := by
  constructor
  · unfold load_checkpoint
    cases file_on_disk <;> cases restart <;> simp
  · unfold load_checkpoint
    simp

/-- Claim C10: both mask_integers variants preserve the whitespace token
count whenever they return a string, and every position outside the sampled
index set carries its original token: masking substitutes in place and never
inserts or deletes positions. -/
theorem c10_mask_preserves_positions (tokens : List String) (prop_masked : ℚ)
    (poisson_draw : Nat) (choice : List Nat) (out : List String) :
    (mask_integers tokens prop_masked poisson_draw choice = some out →
        out.length = tokens.length ∧ ∀ i, i ∉ choice → out.get? i = tokens.get? i) ∧
    (mask_integersPrompt tokens prop_masked choice = some out →
        out.length = tokens.length ∧ ∀ i, i ∉ choice → out.get? i = tokens.get? i) := by
  have key : ∀ i, i ∉ choice → (maskSel choice 0 tokens).get? i = tokens.get? i := by
    intro i hi
    exact maskSel_get? choice tokens 0 i (by simpa using hi)
  have klen : (maskSel choice 0 tokens).length = tokens.length := maskSel_length choice tokens 0
  constructor
  · intro h
    simp only [mask_integers] at h
    split at h
    · split at h
      · have hout := Option.some.inj h
        subst hout
        exact ⟨klen, key⟩
      · exact absurd h (by simp)
    · have hout := Option.some.inj h
      subst hout
      exact ⟨rfl, fun i _ => rfl⟩
  · intro h
    simp only [mask_integersPrompt] at h
    split at h
    · split at h
      · have hout := Option.some.inj h
        subst hout
        exact ⟨klen, key⟩
      · exact absurd h (by simp)
    · have hout := Option.some.inj h
      subst hout
      exact ⟨rfl, fun i _ => rfl⟩

/-- Witness for claim C10 at a concrete input: masking the two-token string
"1 2" at index 0 keeps the token count and the unmasked position. -/
theorem c10_mask_preserves_positions_witness :
    (["<mask>", "2"] : List String).length = (["1", "2"] : List String).length ∧
      ∀ i, i ∉ ([0] : List Nat) →
        (["<mask>", "2"] : List String).get? i = (["1", "2"] : List String).get? i :=
  (c10_mask_preserves_positions ["1", "2"] 1 1 [0] ["<mask>", "2"]).1 (by decide)

/-- Claim C2 is violated by the code: with the one-token window "5",
prop_masked = 1 and a Poisson draw of 2, mask_integers does not clamp the
draw to the token count but hits the np.random.choice sampling fault
(embedded as none), so no masked string is returned. -/
theorem c2_no_clamp_eval : mask_integers ["5"] 1 2 [] = none := by decide

/-- Claim C3 is violated by the code: the regex-based merging leaves the
adjacent sentinel pair [5, 5] uncollapsed, and on [15, 5, 3] it deletes the
sentinel by matching across the decimal rendering of the non-mask id 15,
while the reference linear scan returns [5] and [15, 5, 3] respectively. -/
theorem c3_merge_differs_from_scan_eval :
    mergeMasks 5 [5, 5] = [5, 5] ∧ collapseLinearScan 5 [5, 5] = [5] ∧
      mergeMasks 5 [15, 5, 3] = [15, 3] ∧ collapseLinearScan 5 [15, 5, 3] = [15, 5, 3] :=
  ⟨by decide, by decide, by decide, by decide⟩

/-- Claim C1 is violated by the code in the WordLevel short-sequence branch:
for the three-token text a b c (ids [1, 2, 3]) with max_seq_length 5 and no
masking, the assembled decoder input is labels[:-1] padded, namely
[1, 2, 7, 7, 7], whose first entry is not the last real label token 3 that
the right-rotation invariant requires. -/
theorem c1_wordlevel_short_not_rotated :
    (getitem wordTok TokType.WordLevel 5 0 9 7 ["a", "b", "c"] ⟨0, 0, []⟩).map
        (fun e => (e.decoder_input, e.labels)) =
      some ([1, 2, 7, 7, 7], [1, 2, 3, -100, -100]) ∧
      ([1, 2, 7, 7, 7] : List Int).head? ≠ some 3 :=
  ⟨by decide, by decide⟩

/-- Claim C4 as stated is false on the code: with len(input) = 12 and
max_length = 10 the window at start_index 2 is the final slice (2 + 10 = 12),
so the claim requires the end marker to be kept and the start marker dropped
(drop 1 of the encoding), but bpe_marker_slice strips both markers there. -/
theorem c4_final_slice_counterexample :
    2 + 10 = 12 ∧
      bpe_marker_slice [0, 10, 11, 12, 2] 2 12 10 ≠ List.drop 1 [0, 10, 11, 12, 2] :=
  ⟨by decide, by decide⟩

/-- Claim C4 amended to the code's actual rule: writing the re-encoding as
start marker :: body ++ [end marker], the window keeps both markers exactly
when start_index equals len(input) - max_length - 1 (an off-by-one shy of
the true final slice), keeps the start marker and drops the end marker when
start_index = 0 (and the first test failed), and otherwise - including at
the true final slice - drops both markers. -/
theorem c4_marker_slice_amended (bos eos : Nat) (mid : List Nat)
    (start_index len_input max_length : Nat) :
    bpe_marker_slice (bos :: mid ++ [eos]) start_index len_input max_length =
      if (start_index : Int) = (len_input : Int) - (max_length : Int) - 1 then
        bos :: mid ++ [eos]
      else if start_index = 0 then bos :: mid
      else mid := by
  unfold bpe_marker_slice
  split
  · rfl
  · split
    · show (bos :: mid ++ [eos]).dropLast = bos :: mid
      rw [show bos :: mid ++ [eos] = (bos :: mid) ++ [eos] from rfl, List.dropLast_concat]
    · show (mid ++ [eos]).dropLast = mid
      exact List.dropLast_concat

/-- Claim C5 as stated is false on the code: with patience 2 and
min_delta 0, after the first observation fixes best_loss = 1 the sequence
[1, 1] is monotonically non-improving (each loss equals the previous best)
and has length patience, yet the handler never sets early_stop, because a
loss equal to best - 0 fails the Python test val_loss > best - min_delta
and resets the counter instead of incrementing it. -/
theorem c5_equal_losses_counterexample :
    (EarlyStopping.run (EarlyStopping.start 2 0) [1, 1, 1]).early_stop = false := by
  simp [EarlyStopping.run, EarlyStopping.call, EarlyStopping.start]

lemma es_run_noimp (b : ℚ) (losses : List ℚ) :
    ∀ (p c : Nat) (e : Bool), (∀ l ∈ losses, b < l) →
      EarlyStopping.run ⟨p, 0, c, some b, e⟩ losses =
        ⟨p, 0, c + losses.length, some b,
          e || decide (1 ≤ losses.length ∧ p ≤ c + losses.length)⟩ := by
  induction losses with
  | nil =>
    intro p c e h
    have hd : decide (1 ≤ ([] : List ℚ).length ∧ p ≤ c + ([] : List ℚ).length) = false :=
      decide_eq_false (by rintro ⟨h1, _⟩; rw [List.length_nil] at h1; omega)
    refine EarlyStopping.ext (by simp [EarlyStopping.run]) (by simp [EarlyStopping.run])
      (by simp [EarlyStopping.run]) (by simp [EarlyStopping.run]) ?_
    show (EarlyStopping.run ⟨p, 0, c, some b, e⟩ []).early_stop
        = (e || decide (1 ≤ ([] : List ℚ).length ∧ p ≤ c + ([] : List ℚ).length))
    rw [hd, Bool.or_false]
    simp [EarlyStopping.run]
  | cons l ls ih =>
    intro p c e h
    have hbl : b < l := h l (by simp)
    have htail : ∀ x ∈ ls, b < x := fun x hx => h x (by simp [hx])
    have hcall : EarlyStopping.call ⟨p, 0, c, some b, e⟩ l =
        if p ≤ c + 1 then ⟨p, 0, c + 1, some b, true⟩ else ⟨p, 0, c + 1, some b, e⟩ := by
      show (if b - (0 : ℚ) < l then
            if p ≤ c + 1 then (⟨p, 0, c + 1, some b, true⟩ : EarlyStopping)
            else ⟨p, 0, c + 1, some b, e⟩
          else ⟨p, 0, 0, some l, e⟩) = _
      rw [if_pos (show b - (0 : ℚ) < l by rw [sub_zero]; exact hbl)]
    show EarlyStopping.run (EarlyStopping.call ⟨p, 0, c, some b, e⟩ l) ls = _
    rw [hcall]
    by_cases hp : p ≤ c + 1
    · rw [if_pos hp, ih p (c + 1) true htail]
      refine EarlyStopping.ext rfl rfl (by simp only [List.length_cons]; omega) rfl ?_
      show (true || decide (1 ≤ ls.length ∧ p ≤ c + 1 + ls.length)) =
        (e || decide (1 ≤ (l :: ls).length ∧ p ≤ c + (l :: ls).length))
      rw [Bool.true_or,
        decide_eq_true (show 1 ≤ (l :: ls).length ∧ p ≤ c + (l :: ls).length by
          simp only [List.length_cons]; omega),
        Bool.or_true]
    · rw [if_neg hp, ih p (c + 1) e htail]
      refine EarlyStopping.ext rfl rfl (by simp only [List.length_cons]; omega) rfl ?_
      show (e || decide (1 ≤ ls.length ∧ p ≤ c + 1 + ls.length)) =
        (e || decide (1 ≤ (l :: ls).length ∧ p ≤ c + (l :: ls).length))
      congr 1
      apply decide_eq_decide.mpr
      simp only [List.length_cons]
      constructor <;> (intro h'; omega)

/-- Claim C5 amended: with min_delta = 0, once a best loss b is recorded by
the first observation, any sequence of patience further losses each strictly
greater than b drives the handler into the terminal early_stop state on the
patience-th such observation, and it is not yet terminal one observation
earlier; losses equal to the recorded best do not count as non-improving but
reset the counter and best instead. -/
theorem c5_strict_noimprove_stops (p : Nat) (b : ℚ) (losses : List ℚ) (hp : 1 ≤ p)
    (hlen : losses.length = p) (hmono : ∀ l ∈ losses, b < l) :
    (EarlyStopping.run (EarlyStopping.start p 0) (b :: losses)).early_stop = true ∧
      (EarlyStopping.run (EarlyStopping.start p 0) (b :: losses.take (p - 1))).early_stop
        = false := by
  constructor
  · show (EarlyStopping.run ⟨p, 0, 0, some b, false⟩ losses).early_stop = true
    rw [es_run_noimp b losses p 0 false hmono]
    show (false || decide (1 ≤ losses.length ∧ p ≤ 0 + losses.length)) = true
    rw [Bool.false_or]
    exact decide_eq_true ⟨by omega, by omega⟩
  · have htake : ∀ l ∈ losses.take (p - 1), b < l :=
      fun l hl => hmono l (List.take_subset _ _ hl)
    show (EarlyStopping.run ⟨p, 0, 0, some b, false⟩ (losses.take (p - 1))).early_stop = false
    rw [es_run_noimp b _ p 0 false htake]
    show (false ||
        decide (1 ≤ (losses.take (p - 1)).length ∧ p ≤ 0 + (losses.take (p - 1)).length))
      = false
    rw [Bool.false_or]
    have hlt : (losses.take (p - 1)).length = p - 1 := by
      rw [List.length_take]; omega
    refine decide_eq_false ?_
    rintro ⟨h1, h2⟩
    rw [hlt] at h1 h2
    omega

/-- Witness for claim C5 amended at patience 2, recorded best 1 and the
strictly worsening losses [2, 3]. -/
theorem c5_strict_noimprove_stops_witness :
    (EarlyStopping.run (EarlyStopping.start 2 0) ((1 : ℚ) :: [2, 3])).early_stop = true ∧
      (EarlyStopping.run (EarlyStopping.start 2 0)
        ((1 : ℚ) :: ([2, 3] : List ℚ).take (2 - 1))).early_stop = false :=
  c5_strict_noimprove_stops 2 1 [2, 3] (by decide) (by decide) (by decide)

lemma getitemCore_window (tok : TokenizerModel) (tt : TokType) (max_length : Nat)
    (prop_masked : ℚ) (text : List String) (rnd : RandOracle) (p : PreExample)
    (hcore : getitemCore tok tt max_length prop_masked text rnd = some p)
    (hstart : max_length ≤ (tok.encode text).length →
      rnd.start_index ≤ (tok.encode text).length - max_length) :
    (max_length ≤ (tok.encode text).length →
        p.labels0 = ((tok.encode text).drop rnd.start_index).take max_length ∧
        p.labels0.length = max_length ∧
        p.decoder0.length = max_length ∧
        p.beginning = if rnd.start_index = 0 then 1 else 0) ∧
    ((tok.encode text).length < max_length →
        p.labels0 = tok.encode text ∧
        p.decoder0.length ≤ (tok.encode text).length ∧
        p.beginning = 1) := by
  unfold getitemCore at hcore
  by_cases hlen : max_length ≤ (tok.encode text).length
  · rw [if_pos hlen] at hcore
    refine ⟨fun _ => ?_, fun hc => absurd hlen (by omega)⟩
    split at hcore
    · exact absurd hcore (by simp)
    · rename_i last heq
      split at hcore
      · exact absurd hcore (by simp)
      · rename_i text_masked hmask
        have hp := Option.some.inj hcore
        subst hp
        have hlab : (((tok.encode text).drop rnd.start_index).take max_length).length
            = max_length := by
          rw [List.length_take, List.length_drop]
          have := hstart hlen
          omega
        have hne : ((tok.encode text).drop rnd.start_index).take max_length ≠ [] := by
          intro h0
          rw [h0] at heq
          simp at heq
        refine ⟨rfl, hlab, ?_, rfl⟩
        show (last :: (((tok.encode text).drop rnd.start_index).take max_length).dropLast).length
            = max_length
        rw [List.length_cons, List.length_dropLast, hlab]
        have hpos : 1 ≤ max_length := by
          by_contra h0
          have hm0 : max_length = 0 := by omega
          subst hm0
          exact hne (by simp)
        omega
  · rw [if_neg hlen] at hcore
    refine ⟨fun hc => absurd hc hlen, fun _ => ?_⟩
    split at hcore
    · exact absurd hcore (by simp)
    · rename_i text_masked hmask
      by_cases htt : tt = TokType.BPE
      · rw [if_pos htt] at hcore
        split at hcore
        · exact absurd hcore (by simp)
        · rename_i last heq
          have hp := Option.some.inj hcore
          subst hp
          have hne : tok.encode text ≠ [] := by
            intro h0; rw [h0] at heq; simp at heq
          refine ⟨rfl, ?_, rfl⟩
          show (last :: (tok.encode text).dropLast).length ≤ (tok.encode text).length
          rw [List.length_cons, List.length_dropLast]
          have h1 : 1 ≤ (tok.encode text).length := List.length_pos.mpr hne
          omega
      · rw [if_neg htt] at hcore
        have hp := Option.some.inj hcore
        subst hp
        refine ⟨rfl, ?_, rfl⟩
        show ((tok.encode text).dropLast).length ≤ (tok.encode text).length
        rw [List.length_dropLast]
        omega

/-- Claim C7: whenever __getitem__ succeeds and the window offset is a valid
randint draw, a sequence of length at most max_length yields itself as the
window (labels before padding) with the sequence-start flag set (start
offset 0), while a longer sequence yields the contiguous slice of length
exactly max_length at the sampled offset, which lies in
[0, len - max_length]. -/
theorem c7_window_of_sequence (tok : TokenizerModel) (tt : TokType) (max_length : Nat)
    (prop_masked : ℚ) (text : List String) (rnd : RandOracle) (p : PreExample)
    (hcore : getitemCore tok tt max_length prop_masked text rnd = some p)
    (hstart : max_length ≤ (tok.encode text).length →
      rnd.start_index ≤ (tok.encode text).length - max_length) :
    ((tok.encode text).length ≤ max_length →
        p.labels0 = tok.encode text ∧ p.beginning = 1) ∧
    (max_length < (tok.encode text).length →
        p.labels0 = ((tok.encode text).drop rnd.start_index).take max_length ∧
        p.labels0.length = max_length ∧
        rnd.start_index ≤ (tok.encode text).length - max_length) := by
  obtain ⟨hlong, hshort⟩ :=
    getitemCore_window tok tt max_length prop_masked text rnd p hcore hstart
  constructor
  · intro hle
    rcases Nat.lt_or_ge (tok.encode text).length max_length with hlt | hge
    · obtain ⟨h1, _, h3⟩ := hshort hlt
      exact ⟨h1, h3⟩
    · obtain ⟨h1, _, _, h4⟩ := hlong hge
      have hs0 : rnd.start_index = 0 := by
        have := hstart hge
        omega
      refine ⟨?_, ?_⟩
      · rw [h1, hs0, List.drop_zero]
        exact List.take_of_length_le hle
      · rw [h4, if_pos hs0]
  · intro hlt
    have hge : max_length ≤ (tok.encode text).length := Nat.le_of_lt hlt
    obtain ⟨h1, h2, _, _⟩ := hlong hge
    exact ⟨h1, h2, hstart hge⟩

/-- Witness for claim C7 at the concrete long sequence a b c with window
length 2 and sampled offset 1: the window is the middle slice [2, 3] of
length exactly 2. -/
theorem c7_window_of_sequence_witness :
    ((wordTok.encode ["a", "b", "c"]).length ≤ 2 →
        (⟨[2, 3], [3, 2], [2, 3], 0⟩ : PreExample).labels0 = wordTok.encode ["a", "b", "c"] ∧
          (⟨[2, 3], [3, 2], [2, 3], 0⟩ : PreExample).beginning = 1) ∧
    (2 < (wordTok.encode ["a", "b", "c"]).length →
        (⟨[2, 3], [3, 2], [2, 3], 0⟩ : PreExample).labels0 =
            ((wordTok.encode ["a", "b", "c"]).drop 1).take 2 ∧
          (⟨[2, 3], [3, 2], [2, 3], 0⟩ : PreExample).labels0.length = 2 ∧
          1 ≤ (wordTok.encode ["a", "b", "c"]).length - 2) :=
  c7_window_of_sequence wordTok TokType.WordLevel 2 0 ["a", "b", "c"] ⟨1, 0, []⟩
    ⟨[2, 3], [3, 2], [2, 3], 0⟩ (by decide) (by decide)

lemma assemble_decoder (max_length mask_token pad_token : Nat) (p : PreExample) :
    (assemble max_length mask_token pad_token p).decoder_input =
      pad_input (p.decoder0.map Int.ofNat) max_length (pad_token : Int) false := rfl

lemma assemble_labels (max_length mask_token pad_token : Nat) (p : PreExample) :
    (assemble max_length mask_token pad_token p).labels =
      pad_input (p.labels0.map Int.ofNat) max_length (pad_token : Int) true := rfl

lemma assemble_encoder (max_length mask_token pad_token : Nat) (p : PreExample) :
    (assemble max_length mask_token pad_token p).encoder_input =
      pad_input ((mergeMasks mask_token p.encoder0).map Int.ofNat) max_length
        (pad_token : Int) false := rfl

/-- Claim C6 as stated is false on the code: under the BPE tokenizer the
two-word text a b encodes (with boundary markers) to 4 ids, the window of
max_seq_length 3 at the valid offset 0 hits the keep-both-markers branch,
the decoded window re-encodes to 4 ids again, and pad_input never truncates,
so the returned encoder_input has length 4 rather than max_seq_length 3. -/
theorem c6_overlength_encoder_counterexample :
    (getitem bpeTok TokType.BPE 3 0 4 1 ["a", "b"] ⟨0, 0, []⟩).map
        (fun e => e.encoder_input.length) = some 4 ∧ (4 : Nat) ≠ 3 :=
  ⟨by decide, by decide⟩

/-- Claim C6 amended: whenever __getitem__ succeeds and the window offset is
a valid randint draw, the padded decoder_input and labels have length
exactly max_length, with pad_token_id after the real decoder content and
-100 after the real labels; the padded encoder_input likewise has length
exactly max_length with pad_token_id after the real content provided the
merged masked re-encoding is at most max_length long (under BPE boundary
markers it can be longer, and pad_input never truncates it). -/
theorem c6_padded_shape (tok : TokenizerModel) (tt : TokType) (max_length : Nat)
    (prop_masked : ℚ) (mask_token pad_token : Nat) (text : List String) (rnd : RandOracle)
    (p : PreExample)
    (hcore : getitemCore tok tt max_length prop_masked text rnd = some p)
    (hstart : max_length ≤ (tok.encode text).length →
      rnd.start_index ≤ (tok.encode text).length - max_length)
    (henc : (mergeMasks mask_token p.encoder0).length ≤ max_length) :
    getitem tok tt max_length prop_masked mask_token pad_token text rnd =
        some (assemble max_length mask_token pad_token p) ∧
      (assemble max_length mask_token pad_token p).decoder_input.length = max_length ∧
      (assemble max_length mask_token pad_token p).labels.length = max_length ∧
      (assemble max_length mask_token pad_token p).encoder_input.length = max_length ∧
      (assemble max_length mask_token pad_token p).decoder_input.drop p.decoder0.length =
        List.replicate (max_length - p.decoder0.length) (pad_token : Int) ∧
      (assemble max_length mask_token pad_token p).labels.drop p.labels0.length =
        List.replicate (max_length - p.labels0.length) (-100) ∧
      (assemble max_length mask_token pad_token p).encoder_input.drop
          (mergeMasks mask_token p.encoder0).length =
        List.replicate (max_length - (mergeMasks mask_token p.encoder0).length)
          (pad_token : Int) := by
  have hwin := getitemCore_window tok tt max_length prop_masked text rnd p hcore hstart
  have hd : p.decoder0.length ≤ max_length := by
    rcases Nat.lt_or_ge (tok.encode text).length max_length with hlt | hge
    · obtain ⟨_, h2, _⟩ := hwin.2 hlt
      omega
    · obtain ⟨_, _, h3, _⟩ := hwin.1 hge
      omega
  have hl : p.labels0.length ≤ max_length := by
    rcases Nat.lt_or_ge (tok.encode text).length max_length with hlt | hge
    · obtain ⟨h1, _, _⟩ := hwin.2 hlt
      rw [h1]; omega
    · obtain ⟨_, h2, _, _⟩ := hwin.1 hge
      omega
  refine ⟨?_, ?_, ?_, ?_, ?_, ?_, ?_⟩
  · simp [getitem, hcore]
  · rw [assemble_decoder]
    exact pad_input_length _ _ _ _ (by rw [List.length_map]; exact hd)
  · rw [assemble_labels]
    exact pad_input_length _ _ _ _ (by rw [List.length_map]; exact hl)
  · rw [assemble_encoder]
    exact pad_input_length _ _ _ _ (by rw [List.length_map]; exact henc)
  · rw [assemble_decoder]
    have h := pad_input_drop_pad (p.decoder0.map Int.ofNat) max_length (pad_token : Int)
    rw [List.length_map] at h
    exact h
  · rw [assemble_labels]
    have h :=
      pad_input_drop_ignore (p.labels0.map Int.ofNat) max_length (pad_token : Int)
    rw [List.length_map] at h
    exact h
  · rw [assemble_encoder]
    have h := pad_input_drop_pad ((mergeMasks mask_token p.encoder0).map Int.ofNat)
      max_length (pad_token : Int)
    rw [List.length_map] at h
    exact h

/-- Witness for claim C6 amended at the one-word WordLevel text a with
max_seq_length 2: decoder input, labels and encoder input are all padded to
length exactly 2 with the required padding values. -/
theorem c6_padded_shape_witness :
    getitem wordTok TokType.WordLevel 2 0 9 7 ["a"] ⟨0, 0, []⟩ =
        some (assemble 2 9 7 ⟨[1], [], [1], 1⟩) ∧
      (assemble 2 9 7 ⟨[1], [], [1], 1⟩).decoder_input.length = 2 ∧
      (assemble 2 9 7 ⟨[1], [], [1], 1⟩).labels.length = 2 ∧
      (assemble 2 9 7 ⟨[1], [], [1], 1⟩).encoder_input.length = 2 ∧
      (assemble 2 9 7 ⟨[1], [], [1], 1⟩).decoder_input.drop ([] : List Nat).length =
        List.replicate (2 - ([] : List Nat).length) ((7 : Nat) : Int) ∧
      (assemble 2 9 7 ⟨[1], [], [1], 1⟩).labels.drop ([1] : List Nat).length =
        List.replicate (2 - ([1] : List Nat).length) (-100) ∧
      (assemble 2 9 7 ⟨[1], [], [1], 1⟩).encoder_input.drop (mergeMasks 9 [1]).length =
        List.replicate (2 - (mergeMasks 9 [1]).length) ((7 : Nat) : Int) :=
  c6_padded_shape wordTok TokType.WordLevel 2 0 9 7 ["a"] ⟨0, 0, []⟩ ⟨[1], [], [1], 1⟩
    (by decide) (by decide) (by decide)
